import Mathlib

/-!
# Verification of the phase4-server core against its specification

Shallow embedding of the parts of the `phase4` repository that the checked
claims are about:

* `pkg/bitint/pow2.go` — power-of-two helpers,
* `internal/p4/runtime/stage/system.go` — the actor registry,
* `internal/p4/runtime/stage/actor.go` — mailbox send paths,
* `internal/p4/signal.go` — the raw-message pool,
* the FFT stage (`FFTProcessor.Process` and friends, package `analysis`),
* the BPM detector (`BPMDetector.ProcessFlux` / `calculateBPM`, package `analysis`),
* the engine audio callback (`internal/p4/stream.go`).

Go `float64` arithmetic is embedded as exact real arithmetic (`ℝ`), `int` as
`ℤ` with explicit truncation where the Go code truncates, slices as lists
(with an explicit length field where slice-truncation semantics matter, and
an explicit reference constructor where slice aliasing matters).
-/

namespace Phase4

/-! ## pkg/bitint/pow2.go -/

/-- Go standard library `bits.Len64` / `bits.Len32`: the number of
bits required to represent `x`, i.e. `0` for `x = 0` and `log2 x + 1`
otherwise.  (For `bits.Len32` the argument is already reduced mod `2^32`
by the `uint32` conversion at the call site.) -/
def bitsLen (x : ℕ) : ℕ :=
  if x = 0 then 0 else Nat.log2 x + 1

/-- Function `NextPowerOfTwo` from `src/pkg/bitint/pow2.go`, on a platform with a
64-bit `int`/`uint` (the relevant case for this audio engine).

The source reads

```go
if size <= 0 { return 1 }
// 64-bit platforms (where int is 64-bit).
if ^uint(0)>>63 == 0 {
    return int(1 << (bits.Len64(uint64(size - 1))))
}
// 32-bit platforms.
return int(1 << (bits.Len32(uint32(size - 1))))
```

On a 64-bit platform `^uint(0)` is `2^64 - 1`, so `^uint(0)>>63` is `1` and
the guard `== 0` is FALSE: contrary to its comment, a 64-bit platform takes
the second branch, `int(1 << bits.Len32(uint32(size-1)))`.  The `uint32`
conversion truncates `size - 1` mod `2^32`, and the shift amount is at most
`32`, so `1 << L` fits an `int64` without wrapping. -/
def NextPowerOfTwo (size : ℤ) : ℤ :=
  if size ≤ 0 then 1
  else (2 : ℤ) ^ bitsLen ((size - 1).toNat % 2 ^ 32)

/-- Function `IsPowerOfTwo` from `src/pkg/bitint/pow2.go`: `n > 0 && (n&(n-1)) == 0`.
For `n > 0` the bitwise test is taken on the nonnegative values, hence on
`ℕ` via `toNat`. -/
def IsPowerOfTwo (n : ℤ) : Bool :=
  n > 0 && (n.toNat &&& (n.toNat - 1)) == 0

/-! ## internal/p4/runtime/stage/system.go — actor registry -/

/-- The only part of a registered actor that `System.Register` / `System.Get`
interact with is its `ID()`; `payload` stands for the rest of the actor
value so that distinct actors with equal ids can be told apart. -/
structure StageActor where
  id : String
  payload : ℕ
  deriving DecidableEq, Repr

/-- Structure `System` from `src/internal/p4/runtime/stage/system.go`: the registry
map `actors map[string]Actor`, embedded as an association list with unique
keys (Go map semantics: at most one binding per key). -/
structure System where
  actors : List (String × StageActor)
  deriving DecidableEq, Repr

/-- Method `System.Get` (system.go lines 36-43): map lookup. -/
def System.Get (s : System) (id : String) : Option StageActor :=
  s.actors.lookup id

/-- Method `System.Register` (system.go lines 21-34): if an actor with the same id
already exists, return an error and leave the map untouched; otherwise add
the binding.  The result pairs the updated system with `some errorMessage`
on failure (`fmt.Errorf("actor with ID %s already registered", id)`) and
`none` on success. -/
def System.Register (s : System) (a : StageActor) : System × Option String :=
  if (s.actors.lookup a.id).isSome then
    (s, some ("actor with ID " ++ a.id ++ " already registered"))
  else
    ({ actors := s.actors ++ [(a.id, a)] }, none)

/-! ## internal/p4/signal.go — raw-message pool -/

/-- A Go slice of `float64`, with slice-truncation semantics made explicit:
`backing` is the underlying array up to the slice capacity and `len` the
slice length (`len ≤ backing.length`).  `msg.Magnitudes[:0]` sets `len` to
`0` and keeps `backing` — length zero, capacity preserved. -/
structure GoSliceF64 where
  backing : List ℝ
  len : ℕ

/-- Record `RawAudioMessage` from `src/internal/p4/signal.go` (lines 93-99), the
`RawFrame` record of the spec: two float64 sequences and three scalars. -/
structure RawAudioMessage where
  Magnitudes : GoSliceF64
  SpectralFlux : GoSliceF64
  FrameCount : ℕ
  BPM : ℝ
  BPMConfidence : ℝ

/-- The record mutation performed by `PutRawMessage` (signal.go lines
130-134) before handing the record to `RawMessagePool.Put`:

```go
msg.Magnitudes = msg.Magnitudes[:0] // Reset slice but keep capacity
msg.FrameCount = 0
```

Only `Magnitudes` and `FrameCount` are touched. -/
def resetRawMessage (m : RawAudioMessage) : RawAudioMessage :=
  { m with Magnitudes := { m.Magnitudes with len := 0 }, FrameCount := 0 }

/-- Function `PutRawMessage` (signal.go lines 130-134): reset the record as above and
return it to the pool (`sync.Pool.Put`, modelled as pushing onto the pool's
free list). -/
def PutRawMessage (pool : List RawAudioMessage) (m : RawAudioMessage) :
    List RawAudioMessage :=
  resetRawMessage m :: pool

/-! ## internal/p4/runtime/stage/actor.go — mailbox send paths -/

/-- The two error values `ErrActorClosed` and `ErrMailboxFull`. -/
inductive ActorError where
  | closed
  | mailboxFull
  deriving DecidableEq, Repr

/-- Structure `BaseActor` from `src/internal/p4/runtime/stage/actor.go`: the state
consulted by the send paths — lifecycle flags, the buffered channel
(`mailbox`, modelled as its queued contents plus its capacity). -/
structure BaseActor (Msg : Type) where
  id : String
  capacity : ℕ
  mailbox : List Msg
  started : Bool
  stopping : Bool

/-- Constructor `NewBaseActor` (actor.go lines 9-19): a capacity `≤ 0` is normalized to
the default `100`; the mailbox starts empty, the actor is neither started
nor stopping. -/
def NewBaseActor (Msg : Type) (id : String) (capacity : ℤ) : BaseActor Msg :=
  { id := id
    capacity := if capacity ≤ 0 then 100 else capacity.toNat
    mailbox := []
    started := false
    stopping := false }

/-- Method `BaseActor.Send` (actor.go lines 25-54).  The channel send sits in a
`select` with a `default` arm, so it never blocks: it succeeds exactly when
the buffered channel has free space.  On a full mailbox the source re-reads
the lifecycle flags (the race re-check) and returns `ErrActorClosed` if the
actor stopped meanwhile, else `ErrMailboxFull`; in this sequential embedding
the re-read sees the same flags. -/
def BaseActor.Send {Msg : Type} (a : BaseActor Msg) (m : Msg) :
    BaseActor Msg × Option ActorError :=
  if a.stopping || !a.started then
    (a, some .closed)
  else if a.mailbox.length < a.capacity then
    ({ a with mailbox := a.mailbox ++ [m] }, none)
  else if a.stopping || !a.started then
    (a, some .closed)
  else
    (a, some .mailboxFull)

/-- Method `BaseActor.SendNonBlocking` (actor.go lines 56-70): same state check and
non-blocking channel send, without the re-check. -/
def BaseActor.SendNonBlocking {Msg : Type} (a : BaseActor Msg) (m : Msg) :
    BaseActor Msg × Option ActorError :=
  if a.stopping || !a.started then
    (a, some .closed)
  else if a.mailbox.length < a.capacity then
    ({ a with mailbox := a.mailbox ++ [m] }, none)
  else
    (a, some .mailboxFull)

/-! ## pkg/buffer — Float64DoubleBuffer (double_test.go lines 326-376) -/

/-- Structure `Float64DoubleBuffer`: two `[]float64` slots and the index of
the active (read) slot. -/
structure Float64DoubleBuffer where
  buffers : Fin 2 → List ℝ
  active : Fin 2

/-- Constructor `NewFloat64DoubleBuffer`: slot 0 active. -/
def NewFloat64DoubleBuffer (buffer1 buffer2 : List ℝ) : Float64DoubleBuffer :=
  { buffers := fun j => if j = 0 then buffer1 else buffer2, active := 0 }

/-- Method `Float64DoubleBuffer.Get`: the source returns a freshly allocated
copy of the active slot (`make` + `copy`); as a Lean value the copy is equal
to the slot contents.  (That the result is an independent allocation — not a
view of the slot — is what the engine-level model below records with
`FloatSliceRef.fresh`.) -/
def Float64DoubleBuffer.Get (db : Float64DoubleBuffer) : List ℝ :=
  db.buffers db.active

/-- Method `Float64DoubleBuffer.Swap`: apply `updateFn` in place to the
inactive slot, then flip the active index onto it. -/
def Float64DoubleBuffer.Swap (db : Float64DoubleBuffer) (updateFn : List ℝ → List ℝ) :
    Float64DoubleBuffer :=
  let inactive : Fin 2 := 1 - db.active
  { buffers := Function.update db.buffers inactive (updateFn (db.buffers inactive))
    active := inactive }

/-! ## FFT stage — second `FFTProcessor` draft in `src/unnamed/part_016`
(lines 100-322, package `analysis`; struct fields in
`src/internal/p4/analysis/fft.h.go`).  The `frameCounter`/`debugInterval`
fields only feed a commented-out debug log and are omitted. -/

/-- State of the FFT processor (fft.h.go lines 11-26). -/
structure FFTProcessor where
  fftSize : ℕ
  sampleRate : ℝ
  normFactor : ℝ
  fftInputScale : ℝ
  window : List ℝ
  inputBuffer : List ℝ
  fftOutput : List ℂ
  magnitudes : Float64DoubleBuffer
  frequencyBins : List ℝ
  prevMagnitudes : List ℝ
  spectralFlux : List ℝ

/-- Coefficient `k` of the unnormalized discrete Fourier transform of the
real input sequence `x` of length `N`, as computed by
`gonum.org/v1/gonum/dsp/fourier.FFT.Coefficients` (an external library,
modelled by the defining DFT sum). -/
noncomputable def dftCoeff (x : List ℝ) (N : ℕ) (k : ℕ) : ℂ :=
  ∑ n ∈ Finset.range N,
    (x.getD n 0 : ℂ) * Complex.exp (-(2 * Real.pi * Complex.I) * k * n / N)

/-- Constructor `NewFFTProcessor` (part_016 lines 115-159).  The window
coefficient table is produced by `applyWindowFunc` (part_018 lines 383-413)
through the gonum window library, which is external to the repository; it is
passed here as the `windowCoeffs` parameter.  Everything else follows the
source: the power-of-two check (error return modelled as `none`),
`magnitudeSize = size/2 + 1`, `frequencyBins[i] = i * (sampleRate / size)`,
zero-initialized buffers, `normFactor = 1/2^31` and
`fftInputScale = 1/size`. -/
noncomputable def NewFFTProcessor (size : ℤ) (sampleRate : ℝ)
    (windowCoeffs : List ℝ) : Option FFTProcessor :=
  if ¬ IsPowerOfTwo size then none
  else
    let n := size.toNat
    let magnitudeSize := n / 2 + 1
    some
      { fftSize := n
        sampleRate := sampleRate
        normFactor := 1 / 2 ^ 31
        fftInputScale := 1 / (n : ℝ)
        window := windowCoeffs
        inputBuffer := List.replicate n 0
        fftOutput := List.replicate magnitudeSize 0
        magnitudes :=
          NewFloat64DoubleBuffer (List.replicate magnitudeSize 0)
            (List.replicate magnitudeSize 0)
        frequencyBins :=
          (List.range magnitudeSize).map fun i => (i : ℝ) * (sampleRate / (n : ℝ))
        prevMagnitudes := List.replicate magnitudeSize 0
        spectralFlux := List.replicate magnitudeSize 0 }

/-- Magnitude written by iteration `i` of the `Swap` loop of
`FFTProcessor.Process` (part_016 lines 186-196):
`mag := cmplx.Abs(p.fftOutput[i]) * p.fftInputScale`, doubled for the
single-sided compensation when `0 < i < fftSize/2` (not DC, not Nyquist). -/
noncomputable def storedMagnitude (p : FFTProcessor) (Y : List ℂ) (i : ℕ) : ℝ :=
  let mag := Complex.abs (Y.getD i 0) * p.fftInputScale
  if 0 < i ∧ i < p.fftSize / 2 then mag * 2 else mag

/-- Spectral-flux value written by iteration `i` of the same loop (part_016
lines 203-218): weight `2` below 200 Hz else `1`,
`diff := (newMag - prev[i]) * weight`, stored when positive else `0`.
The `prev` argument is the `prevMagnitudes` array as the iteration reads
it. -/
noncomputable def fluxValue (p : FFTProcessor) (Y : List ℂ) (prev : List ℝ)
    (i : ℕ) : ℝ :=
  let weight : ℝ := if p.frequencyBins.getD i 0 < 200 then 2 else 1
  let diff := (storedMagnitude p Y i - prev.getD i 0) * weight
  if diff > 0 then diff else 0

/-- One iteration of the fused loop inside `p.magnitudes.Swap` (part_016
lines 186-223): the state is `(currentMagBuffer, spectralFlux,
prevMagnitudes)`; iteration `i` writes the compensated magnitude into the
snapshot slot, the flux into `spectralFlux` (reading `prevMagnitudes[i]`
before it is overwritten), then updates `prevMagnitudes[i]`.  (The
`bassEnergy`/`totalFlux`/`maxFlux` accumulators only feed the commented-out
debug log and are omitted.) -/
noncomputable def processStep (p : FFTProcessor) (Y : List ℂ)
    (st : List ℝ × List ℝ × List ℝ) (i : ℕ) : List ℝ × List ℝ × List ℝ :=
  (st.1.set i (storedMagnitude p Y i),
   (st.2.1).set i (fluxValue p Y st.2.2 i),
   (st.2.2).set i (storedMagnitude p Y i))

/-- Input-buffer fill of `FFTProcessor.Process` (part_016 lines 169-177):
`normalized := input[i] * normFactor`, windowed; zero-pad past the end of
the input, truncate past `fftSize` (the `inputRMS` accumulator only feeds
the commented-out debug log and is omitted). -/
noncomputable def processInput (p : FFTProcessor) (input : List ℤ) : List ℝ :=
  (List.range p.fftSize).map fun i =>
    if i < input.length then
      ((input.getD i 0 : ℝ) * p.normFactor) * p.window.getD i 0
    else 0

/-- The FFT output filled by line 180 of `Process`: the `magnitudeSize =
len(p.frequencyBins)` coefficients of the real-input DFT of the windowed
input. -/
noncomputable def processOutput (p : FFTProcessor) (input : List ℤ) : List ℂ :=
  (List.range p.frequencyBins.length).map fun k =>
    dftCoeff (processInput p input) p.fftSize k

/-- Final state of the fused `Swap` loop (part_016 lines 186-223): the
`(currentMagBuffer, spectralFlux, prevMagnitudes)` triple after the loop ran
over the inactive snapshot slot. -/
noncomputable def processSwapState (p : FFTProcessor) (input : List ℤ) :
    List ℝ × List ℝ × List ℝ :=
  (List.range p.frequencyBins.length).foldl
    (processStep p (processOutput p input))
    (p.magnitudes.buffers (1 - p.magnitudes.active), p.spectralFlux,
      p.prevMagnitudes)

/-- Method `FFTProcessor.Process` (part_016 lines 161-235): fill the input
buffer, run the FFT, then `p.magnitudes.Swap` with the fused magnitude /
flux / previous-magnitude loop — the loop runs over the inactive snapshot
slot, which then becomes active. -/
noncomputable def Process (p : FFTProcessor) (input : List ℤ) : FFTProcessor :=
  { p with
      inputBuffer := processInput p input
      fftOutput := processOutput p input
      magnitudes :=
        { buffers :=
            Function.update p.magnitudes.buffers (1 - p.magnitudes.active)
              (processSwapState p input).1
          active := 1 - p.magnitudes.active }
      spectralFlux := (processSwapState p input).2.1
      prevMagnitudes := (processSwapState p input).2.2 }

/-- Method `FFTProcessor.GetMagnitudes` (part_016 lines 302-304): a fresh
copy of the active snapshot slot. -/
noncomputable def GetMagnitudes (p : FFTProcessor) : List ℝ :=
  p.magnitudes.Get

/-- Method `FFTProcessor.GetSpectralFlux` (part_016 lines 310-312): the
shared persistent `spectralFlux` slice itself, not a copy. -/
noncomputable def GetSpectralFlux (p : FFTProcessor) : List ℝ :=
  p.spectralFlux

/-- Well-formedness facts established by `NewFFTProcessor` and preserved by
`Process`: the magnitude-side scale is `1/size`, there are `fftSize/2 + 1`
frequency bins, and every per-bin buffer has one entry per bin. -/
structure FFTWellFormed (p : FFTProcessor) : Prop where
  inputScale : p.fftInputScale = 1 / (p.fftSize : ℝ)
  binCount : p.frequencyBins.length = p.fftSize / 2 + 1
  prevLen : p.prevMagnitudes.length = p.frequencyBins.length
  fluxLen : p.spectralFlux.length = p.frequencyBins.length
  magLen : ∀ j : Fin 2, (p.magnitudes.buffers j).length = p.frequencyBins.length

/-! ## internal/p4/stream.go — the audio callback (hot path)

The callback populates a pooled `RawAudioMessage` by plain slice-header
assignment (stream.go lines 90-95):

```go
rawMsg := stage.GetRawMessage()
rawMsg.Magnitudes = magnitudes     // magnitudes   := e.fftProc.GetMagnitudes()
rawMsg.SpectralFlux = spectralFlux // spectralFlux := e.fftProc.GetSpectralFlux()
```

`GetMagnitudes` returns a freshly allocated copy, while `GetSpectralFlux`
returns the processor's persistent `spectralFlux` slice, so the message's
`SpectralFlux` field aliases a buffer that the next `Process` call
overwrites in place.  The model makes this aliasing explicit: a float
slice held by a message is either a fresh allocation carrying its own data
or a view of the processor's flux buffer, and `readSlice` dereferences it
against the current engine state. -/

/-- A `[]float64` slice header held by a hot-path message: either a fresh
allocation with its own backing data, or the shared view
`e.fftProc.spectralFlux`. -/
inductive FloatSliceRef where
  | fresh (data : List ℝ)
  | fluxView

/-- The pooled `RawAudioMessage` as the callback populates it, with the two
slice fields as slice headers. -/
structure HotPathRawMessage where
  Magnitudes : FloatSliceRef
  SpectralFlux : FloatSliceRef
  FrameCount : ℕ
  BPM : ℝ
  BPMConfidence : ℝ

/-- The engine state the callback touches: the FFT processor and the
monotonic frame counter.  (Modelled in the running configuration with
`e.bpmDetector == nil` — stream.go line 84 — so `bpm، confidence` stay `0`;
the context is not cancelled.) -/
structure Engine where
  fftProc : FFTProcessor
  frameCount : ℕ

/-- Dereference a slice header against the current engine state: a fresh
slice yields its own data, the flux view yields whatever the processor's
persistent flux buffer currently holds. -/
def readSlice (e : Engine) : FloatSliceRef → List ℝ
  | .fresh data => data
  | .fluxView => e.fftProc.spectralFlux

/-- Method `Engine.processInputStream` (stream.go lines 67-107): bump the
frame counter, run the FFT, and — unless the magnitude copy is empty (lines
78-80) — acquire a pooled record and populate it as above.  The pooled
record's pre-sized buffers are discarded by the slice assignments, so the
acquired record does not appear as an argument here; the populated message
is the result. -/
noncomputable def processInputStream (e : Engine) (input : List ℤ) :
    Engine × Option HotPathRawMessage :=
  let frameCount := e.frameCount + 1
  let p := Process e.fftProc input
  let magnitudes := GetMagnitudes p
  ({ fftProc := p, frameCount := frameCount },
    if magnitudes.length = 0 then none
    else some
      { Magnitudes := .fresh magnitudes
        SpectralFlux := .fluxView
        FrameCount := frameCount
        BPM := 0
        BPMConfidence := 0 })

/-! ## BPM detector — `src/unnamed/part_018` (package `analysis`; struct in
`src/unnamed/part_017`) -/

/-- Go `math.Round`: round to the nearest integer, halves away from zero. -/
noncomputable def goRound (x : ℝ) : ℝ :=
  if x < 0 then -(⌊-x + 1 / 2⌋ : ℤ) else ((⌊x + 1 / 2⌋ : ℤ) : ℝ)

/-- Rounding a BPM candidate to the nearest 0.5 BPM:
`math.Round(bpm*2) / 2` (part_018 lines 214 and 296). -/
noncomputable def roundHalfBPM (x : ℝ) : ℝ :=
  goRound (x * 2) / 2

/-- Record `scoredBPM` (part_017 lines 36-39). -/
structure scoredBPM where
  bpm : ℝ
  score : ℝ

/-- Inter-onset interval collection, `calculateBPM` lines 136-144: walk the
live onset times in order, keep each consecutive difference `interval` only
when `interval > 0.2 && interval < 2.0` (both comparisons strict). -/
noncomputable def collectIntervals : List ℝ → List ℝ
  | [] => []
  | [_] => []
  | t0 :: t1 :: rest =>
      let interval := t1 - t0
      if interval > 0.2 ∧ interval < 2.0 then
        interval :: collectIntervals (t1 :: rest)
      else
        collectIntervals (t1 :: rest)

/-- Consecutive differences `onsetTimes[i] - onsetTimes[i-1]`, the spec's
"inter-onset intervals" before filtering. -/
noncomputable def consecutiveDiffs (ts : List ℝ) : List ℝ :=
  List.zipWith (fun a b => a - b) ts.tail ts

/-- One `uniqueCandidates[roundedBPM] = candidate` update of the dedup map
(`calculateBPM` lines 294-300): insert under `key` if absent, replace only
when the new score is strictly higher. -/
noncomputable def mapUpsert (key : ℝ) (c : scoredBPM) :
    List (ℝ × scoredBPM) → List (ℝ × scoredBPM)
  | [] => [(key, c)]
  | (k, v) :: rest =>
      if k = key then
        (if c.score > v.score then (k, c) else (k, v)) :: rest
      else
        (k, v) :: mapUpsert key c rest

/-- The dedup map built from the scored candidates (`calculateBPM` lines
293-300), keyed by the rounded-to-0.5-BPM value.  A Go map is embedded as
an association list in insertion order; its iteration order is unspecified
in Go, and every property proved below is invariant under permutation of
the entries. -/
noncomputable def dedupeCandidates (cands : List scoredBPM) :
    List (ℝ × scoredBPM) :=
  cands.foldl (fun m c => mapUpsert (roundHalfBPM c.bpm) c m) []

/-- The final `bd.scoredCandidates` list after a `calculateBPM` run
(`calculateBPM` lines 293-311): the dedup map's values, sorted by score in
descending order (`sort.Slice` with `score > score`; modelled with a merge
sort — the verified dedup property is order-insensitive). -/
noncomputable def finalCandidates (cands : List scoredBPM) : List scoredBPM :=
  ((dedupeCandidates cands).map Prod.snd).mergeSort
    (fun a b => decide (a.score ≥ b.score))

/-- Reduced flux scalar (`ProcessFlux` lines 40-49): sum of the first 10
flux bins (the `peakFlux` accumulator is unused past the commented-out
debug log and is omitted). -/
def reducedFlux (flux : List ℝ) : ℝ :=
  (flux.take 10).sum

/-- Append to a rolling buffer backed by a fixed array of `cap` slots
(`ProcessFlux` lines 55-63 and 98-105): plain append while the live region
is shorter than the array, else shift left by one and write the last slot. -/
def pushRolling (cap : ℕ) (buf : List ℝ) (v : ℝ) : List ℝ :=
  if buf.length < cap then buf ++ [v] else buf.tail ++ [v]

/-- Mean over the last 20 live entries, as the source computes it
(`ProcessFlux` lines 72-76): an index loop summing
`onsetBuffer[len-20+i]` for `i < 20`, divided by 20. -/
noncomputable def mean20 (buf : List ℝ) : ℝ :=
  ((List.range 20).foldl (fun acc i => acc + buf.getD (buf.length - 20 + i) 0) 0) / 20

/-- Accumulated squared deviations over the same window (`ProcessFlux`
lines 78-82): `variance += diff * diff` before the division that happens
inside `math.Sqrt(variance / 20)`. -/
noncomputable def varSum20 (buf : List ℝ) (mean : ℝ) : ℝ :=
  (List.range 20).foldl
    (fun acc i =>
      acc + (buf.getD (buf.length - 20 + i) 0 - mean) *
        (buf.getD (buf.length - 20 + i) 0 - mean))
    0

/-- The dynamic onset threshold (`ProcessFlux` lines 83-86):
`max(mean + 1.5*stdDev, bd.onsetThreshold)` with
`stdDev = sqrt(variance/20)`. -/
noncomputable def dynamicThreshold (buf : List ℝ) (onsetThreshold : ℝ) : ℝ :=
  max (mean20 buf + 1.5 * Real.sqrt (varSum20 buf (mean20 buf) / 20)) onsetThreshold

/-- The peak-detection test of `ProcessFlux` lines 88-93, evaluated on the
post-append buffer: `current > threshold && current > previous*1.3`, with
`current = onsetBuffer[len-1]` and `previous = onsetBuffer[len-2]`. -/
noncomputable def onsetCondition (buf : List ℝ) (onsetThreshold : ℝ) : Prop :=
  buf.getD (buf.length - 1) 0 > dynamicThreshold buf onsetThreshold ∧
    buf.getD (buf.length - 1) 0 > buf.getD (buf.length - 2) 0 * 1.3

/-- Spec-side formulation (claim C7): the mean of the last 20 buffered
values, written directly over the list of those values. -/
noncomputable def specLast20Mean (buf : List ℝ) : ℝ :=
  (buf.drop (buf.length - 20)).sum / 20

/-- Spec-side formulation (claim C7): the standard deviation over the last
20 buffered values. -/
noncomputable def specLast20Std (buf : List ℝ) : ℝ :=
  Real.sqrt
    (((buf.drop (buf.length - 20)).map fun x => (x - specLast20Mean buf) ^ 2).sum / 20)

/-- Spec-side formulation (claim C7):
`threshold = max(mean + 1.5*stdDev, 0.1)`. -/
noncomputable def specThreshold (buf : List ℝ) : ℝ :=
  max (specLast20Mean buf + 1.5 * specLast20Std buf) 0.1

/-- Onset-tracking state of `BPMDetector` (part_017 lines 41-59).  The
rolling arrays are modelled by their live regions
(`onsetBuffer[0:onsetBufferLen]`, `onsetTimes[0:onsetTimesLen]`, both backed
by 1024-slot arrays).  `calculateBPM` reads `onsetTimes` and writes only
`currentBPM`/`confidence` and its scratch buffers (`intervals`,
`histogramBins`, `binCounts`, `bpmCandidates`, `scoredCandidates`) — none of
the fields here — so its stages are embedded separately
(`collectIntervals`, `finalCandidates`) and `processFlux` reports whether it
was invoked. -/
structure BPMDetector where
  sampleRate : ℝ
  framesPerBuffer : ℕ
  onsetThreshold : ℝ
  onsetBuffer : List ℝ
  onsetTimes : List ℝ

/-- Constructor `NewBPMDetector` (part_018 lines 10-33): empty live
regions, `onsetThreshold = 0.1`. -/
def NewBPMDetector (sampleRate : ℝ) (framesPerBuffer : ℕ) : BPMDetector :=
  { sampleRate := sampleRate
    framesPerBuffer := framesPerBuffer
    onsetThreshold := 0.1
    onsetBuffer := []
    onsetTimes := [] }

open Classical in
/-- Method `BPMDetector.ProcessFlux` (part_018 lines 36-129): push the
reduced flux into the rolling buffer; once more than 20 values are live,
evaluate the onset condition; on an onset, compute the onset time, apply
the 100 ms debounce, push and prune the onset times (keep the last 10 s),
and run `calculateBPM` when at least 4 onset times remain.  The returned
Boolean reports whether `calculateBPM` ran. -/
noncomputable def processFlux (bd : BPMDetector) (flux : List ℝ)
    (frameCount : ℕ) : BPMDetector × Bool :=
  let total := reducedFlux flux
  let buf := pushRolling 1024 bd.onsetBuffer total
  let bd1 := { bd with onsetBuffer := buf }
  if buf.length > 20 then
    if onsetCondition buf bd.onsetThreshold then
      let t := (frameCount : ℝ) * (bd.framesPerBuffer : ℝ) / bd.sampleRate
      if bd.onsetTimes.length = 0 ∨
          t - bd.onsetTimes.getD (bd.onsetTimes.length - 1) 0 > 0.1 then
        let pushed := pushRolling 1024 bd.onsetTimes t
        let pruned := pushed.filter fun x => decide (x > t - 10)
        ({ bd1 with onsetTimes := pruned }, decide (pruned.length ≥ 4))
      else
        (bd1, false)
    else
      (bd1, false)
  else
    (bd1, false)

/-! ## Concrete instances for evaluation

A minimal FFT processor (size 1, the smallest power of two accepted by
`NewFFTProcessor`): one magnitude bin at DC, window coefficient table `[1]`,
all buffers zero-initialized — exactly the state `NewFFTProcessor 1 44100`
produces with that window table. -/

noncomputable def procOne : FFTProcessor :=
  { fftSize := 1
    sampleRate := 44100
    normFactor := 1 / 2 ^ 31
    fftInputScale := 1
    window := [1]
    inputBuffer := [0]
    fftOutput := [0]
    magnitudes := NewFloat64DoubleBuffer [0] [0]
    frequencyBins := [0]
    prevMagnitudes := [0]
    spectralFlux := [0] }

/-- An engine wrapping `procOne` before any callback ran. -/
noncomputable def engineOne : Engine :=
  { fftProc := procOne, frameCount := 0 }

/-- First audio callback on `engineOne`, with a silent buffer. -/
noncomputable def engineOneStep1 : Engine × Option HotPathRawMessage :=
  processInputStream engineOne [0]

/-- Second audio callback, with a full-scale-half sample `2^30`. -/
noncomputable def engineOneStep2 : Engine × Option HotPathRawMessage :=
  processInputStream engineOneStep1.1 [2 ^ 30]

/-- The message the first callback acquires and populates. -/
noncomputable def engineOneMsg : HotPathRawMessage :=
  { Magnitudes := .fresh [0]
    SpectralFlux := .fluxView
    FrameCount := 1
    BPM := 0
    BPMConfidence := 0 }

/-- A BPM detector state whose onset buffer already holds 20 live values
(so the next `processFlux` call crosses the `> 20` statistics threshold). -/
noncomputable def bdTwenty : BPMDetector :=
  { sampleRate := 44100
    framesPerBuffer := 256
    onsetThreshold := 0.1
    onsetBuffer := List.replicate 20 1
    onsetTimes := [] }

/-! ## Theorems -/

/-- C9 — code-bug evidence.  The claim (and the package documentation of
`pow2.go`, lines 5-7: "For powers of 2, it returns the same value") requires
`NextPowerOfTwo n = n` for a power of two `n`; but evaluating the code at
the power of two `2^33` yields `2^32`.  The word-size guard
`^uint(0)>>63 == 0` is inverted (it is true exactly on 32-bit platforms), so
a 64-bit platform runs `int(1 << bits.Len32(uint32(size-1)))` and `uint32`
truncates `2^33 - 1` to `2^32 - 1`.  (The other two parts of the claim do
hold of the code: `NextPowerOfTwo n = 1` for `n ≤ 0` by the first branch,
and the truncated map is idempotent since its range is the powers of two up
to `2^32`, each of which it fixes.) -/
theorem nextPowerOfTwo_pow33_eval : NextPowerOfTwo (2 ^ 33) = 2 ^ 32 := by
  have h0 : ¬ ((2 : ℤ) ^ 33 ≤ 0) := by norm_num
  have h1 : ((2 : ℤ) ^ 33 - 1).toNat % 2 ^ 32 = 4294967295 := by
    have h : ((2 : ℤ) ^ 33 - 1) = ((8589934591 : ℕ) : ℤ) := by norm_num
    rw [h, Int.toNat_natCast]
    norm_num
  have h2 : bitsLen 4294967295 = 32 := by
    rw [bitsLen, if_neg (by norm_num), Nat.log2_eq_log_two,
      show Nat.log 2 4294967295 = 31 from
        Nat.log_eq_of_pow_le_of_lt_pow (by norm_num) (by norm_num)]
  simp only [NextPowerOfTwo, if_neg h0, h1, h2]

/-- C10 — confirmed.  Registering an actor whose id is already present
returns the duplicate-id error and is atomic: the registry is left exactly
as it was, and `Get` still returns the originally registered actor. -/
theorem register_duplicate_atomic (s : System) (a a0 : StageActor)
    (h : s.Get a.id = some a0) :
    (s.Register a).2 = some ("actor with ID " ++ a.id ++ " already registered") ∧
      (s.Register a).1 = s ∧ (s.Register a).1.Get a.id = some a0 := by
  have hl : s.actors.lookup a.id = some a0 := h
  refine ⟨?_, ?_, ?_⟩ <;> simp [System.Register, System.Get, hl]

/-- Witness for C10: a concrete registry holding an actor under id
`"processor"`, and a second actor with the same id. -/
theorem register_duplicate_atomic_witness :
    (System.Register ⟨[("processor", ⟨"processor", 0⟩)]⟩ ⟨"processor", 1⟩).2 =
        some "actor with ID processor already registered" ∧
      (System.Register ⟨[("processor", ⟨"processor", 0⟩)]⟩ ⟨"processor", 1⟩).1 =
        ⟨[("processor", ⟨"processor", 0⟩)]⟩ ∧
      (System.Register ⟨[("processor", ⟨"processor", 0⟩)]⟩ ⟨"processor", 1⟩).1.Get
          "processor" = some ⟨"processor", 0⟩ :=
  register_duplicate_atomic ⟨[("processor", ⟨"processor", 0⟩)]⟩ ⟨"processor", 1⟩
    ⟨"processor", 0⟩ rfl

/-- C5 — counterexample.  The claim says `release(msg)` truncates every
sequence field (magnitudes and spectral flux) and clears every scalar field
(frame count, bpm, confidence).  Releasing a concrete record with
`SpectralFlux` of length 1 and `BPM = 120`, `BPMConfidence = 9/10` returns a
record whose `SpectralFlux` still has length 1 and whose `BPM` and
`BPMConfidence` are untouched: `PutRawMessage` resets only `Magnitudes` and
`FrameCount` (signal.go lines 131-132). -/
theorem putRawMessage_cex :
    PutRawMessage [] ⟨⟨[5], 1⟩, ⟨[7], 1⟩, 42, 120, 9 / 10⟩ =
      [⟨⟨[5], 0⟩, ⟨[7], 1⟩, 0, 120, 9 / 10⟩] :=
  rfl

/-- C5 — amended.  `release(msg)` truncates the `Magnitudes` sequence to
length 0 while preserving its backing capacity, clears the `FrameCount`
scalar, leaves `SpectralFlux`, `BPM` and `BPMConfidence` unchanged, and
returns the record to the pool's free list. -/
theorem putRawMessage_spec (pool : List RawAudioMessage) (m : RawAudioMessage) :
    PutRawMessage pool m =
      { m with Magnitudes := ⟨m.Magnitudes.backing, 0⟩, FrameCount := 0 } :: pool :=
  rfl

/-- C4 — counterexample.  The claim says a `send` to a started actor with a
full mailbox blocks until space is available, returning `MailboxFull` only
when the actor is explicitly configured not to block.  `BaseActor` has no
such configuration, and `Send`'s channel send sits in a `select` with a
`default` arm: at a concrete started, non-stopping actor whose 1-slot
mailbox is full, `Send` returns `ErrMailboxFull` immediately. -/
theorem send_full_mailbox_cex :
    BaseActor.Send
        ({ id := "processor", capacity := 1, mailbox := [()],
           started := true, stopping := false } : BaseActor Unit) () =
      ({ id := "processor", capacity := 1, mailbox := [()],
         started := true, stopping := false }, some ActorError.mailboxFull) :=
  rfl

/-- C4 — amended.  For every actor in the started, non-stopping state whose
mailbox is full, `Send` returns `MailboxFull` immediately without blocking
(the state re-check still sees a live actor), and `SendNonBlocking` — the
explicit non-blocking path — does the same. -/
theorem send_full_mailbox_amended {Msg : Type} (a : BaseActor Msg) (m : Msg)
    (hstart : a.started = true) (hstop : a.stopping = false)
    (hfull : a.capacity ≤ a.mailbox.length) :
    a.Send m = (a, some ActorError.mailboxFull) ∧
      a.SendNonBlocking m = (a, some ActorError.mailboxFull) := by
  constructor <;>
    simp [BaseActor.Send, BaseActor.SendNonBlocking, hstart, hstop,
      Nat.not_lt.mpr hfull]

/-- Witness for the amended C4 at a concrete full actor. -/
theorem send_full_mailbox_amended_witness :
    BaseActor.Send
        ({ id := "processor", capacity := 1, mailbox := [()],
           started := true, stopping := false } : BaseActor Unit) () =
      ({ id := "processor", capacity := 1, mailbox := [()],
         started := true, stopping := false }, some ActorError.mailboxFull) ∧
      BaseActor.SendNonBlocking
        ({ id := "processor", capacity := 1, mailbox := [()],
           started := true, stopping := false } : BaseActor Unit) () =
      ({ id := "processor", capacity := 1, mailbox := [()],
         started := true, stopping := false }, some ActorError.mailboxFull) :=
  send_full_mailbox_amended _ () rfl rfl (by decide)

/-! ### Characterization of the fused `Swap` loop -/

/-- Go's `if diff > 0 { x = diff } else { x = 0 }` is the positive part. -/
lemma posPart_eq_max (x : ℝ) : (if x > 0 then x else 0) = max 0 x := by
  rcases le_or_lt x 0 with h | h
  · rw [if_neg (not_lt.mpr h), max_eq_left h]
  · rw [if_pos h, max_eq_right h.le]

/-- The fused loop preserves the lengths of the three arrays. -/
lemma processFold_length (p : FFTProcessor) (Y : List ℂ) (m : ℕ)
    (st : List ℝ × List ℝ × List ℝ) :
    ((List.range m).foldl (processStep p Y) st).1.length = st.1.length ∧
      ((List.range m).foldl (processStep p Y) st).2.1.length = st.2.1.length ∧
      ((List.range m).foldl (processStep p Y) st).2.2.length = st.2.2.length := by
  induction m with
  | zero => exact ⟨rfl, rfl, rfl⟩
  | succ k ih =>
    obtain ⟨h1, h2, h3⟩ := ih
    rw [List.range_succ, List.foldl_append]
    simp [processStep, h1, h2, h3]

/-- Element-wise characterization of the fused loop: running iterations
`0 … m-1` over in-bounds arrays leaves entries at index `≥ m` unchanged,
writes the compensated magnitude into the magnitude and previous-magnitude
arrays at each index `< m`, and writes the flux computed against the
ORIGINAL previous-magnitude entry (each iteration reads `prev[i]` before
overwriting it). -/
lemma processFold_char (p : FFTProcessor) (Y : List ℂ)
    (mag0 flux0 prev0 : List ℝ) (m : ℕ) (hm : m ≤ mag0.length)
    (hf : m ≤ flux0.length) (hp : m ≤ prev0.length) :
    (∀ i, m ≤ i →
        ((List.range m).foldl (processStep p Y) (mag0, flux0, prev0)).1[i]? =
            mag0[i]? ∧
          ((List.range m).foldl (processStep p Y) (mag0, flux0, prev0)).2.1[i]? =
            flux0[i]? ∧
          ((List.range m).foldl (processStep p Y) (mag0, flux0, prev0)).2.2[i]? =
            prev0[i]?) ∧
      (∀ i, i < m →
        ((List.range m).foldl (processStep p Y) (mag0, flux0, prev0)).1[i]? =
            some (storedMagnitude p Y i) ∧
          ((List.range m).foldl (processStep p Y) (mag0, flux0, prev0)).2.1[i]? =
            some (fluxValue p Y prev0 i) ∧
          ((List.range m).foldl (processStep p Y) (mag0, flux0, prev0)).2.2[i]? =
            some (storedMagnitude p Y i)) := by
  induction m with
  | zero =>
    exact ⟨fun i _ => ⟨rfl, rfl, rfl⟩, fun i hi => absurd hi (Nat.not_lt_zero i)⟩
  | succ k ih =>
    obtain ⟨ihout, ihin⟩ :=
      ih (Nat.le_of_succ_le hm) (Nat.le_of_succ_le hf) (Nat.le_of_succ_le hp)
    have hlen := processFold_length p Y k (mag0, flux0, prev0)
    have hstep :
        (List.range (k + 1)).foldl (processStep p Y) (mag0, flux0, prev0) =
          processStep p Y
            ((List.range k).foldl (processStep p Y) (mag0, flux0, prev0)) k := by
      rw [List.range_succ, List.foldl_append]
      rfl
    have hprevk :
        ((List.range k).foldl (processStep p Y) (mag0, flux0, prev0)).2.2.getD k 0 =
          prev0.getD k 0 := by
      rw [List.getD_eq_getElem?_getD, (ihout k le_rfl).2.2,
        ← List.getD_eq_getElem?_getD]
    have hfluxk :
        fluxValue p Y
            ((List.range k).foldl (processStep p Y) (mag0, flux0, prev0)).2.2 k =
          fluxValue p Y prev0 k := by
      simp only [fluxValue, hprevk]
    constructor
    · intro i hi
      have hki : k ≠ i := by omega
      rw [hstep]
      refine ⟨?_, ?_, ?_⟩ <;> simp only [processStep] <;>
        rw [List.getElem?_set_ne hki]
      · exact (ihout i (by omega)).1
      · exact (ihout i (by omega)).2.1
      · exact (ihout i (by omega)).2.2
    · intro i hi
      rw [hstep]
      rcases Nat.lt_succ_iff_lt_or_eq.mp hi with hik | hik
      · have hki : k ≠ i := by omega
        refine ⟨?_, ?_, ?_⟩ <;> simp only [processStep] <;>
          rw [List.getElem?_set_ne hki]
        · exact (ihin i hik).1
        · exact (ihin i hik).2.1
        · exact (ihin i hik).2.2
      · subst hik
        refine ⟨?_, ?_, ?_⟩ <;> simp only [processStep]
        · exact List.getElem?_set_eq_of_lt _
            (by rw [hlen.1]; show i < mag0.length; omega)
        · rw [List.getElem?_set_eq_of_lt _
            (by rw [hlen.2.1]; show i < flux0.length; omega), hfluxk]
        · exact List.getElem?_set_eq_of_lt _
            (by rw [hlen.2.2]; show i < prev0.length; omega)

/-- Per-bin effect of one `Process` call on a well-formed processor: the new
active snapshot slot holds the compensated magnitudes, `spectralFlux` holds
the flux computed against the pre-call `prevMagnitudes`, and
`prevMagnitudes` is overwritten with the compensated magnitudes. -/
lemma process_bins (p : FFTProcessor) (input : List ℤ) (i : ℕ)
    (wf : FFTWellFormed p) (hi : i < p.frequencyBins.length) :
    ((Process p input).magnitudes.buffers (Process p input).magnitudes.active)[i]? =
        some (storedMagnitude p (processOutput p input) i) ∧
      (Process p input).spectralFlux[i]? =
        some (fluxValue p (processOutput p input) p.prevMagnitudes i) ∧
      (Process p input).prevMagnitudes[i]? =
        some (storedMagnitude p (processOutput p input) i) := by
  have hchar := (processFold_char p (processOutput p input)
    (p.magnitudes.buffers (1 - p.magnitudes.active)) p.spectralFlux
    p.prevMagnitudes p.frequencyBins.length
    (le_of_eq (wf.magLen _).symm) (le_of_eq wf.fluxLen.symm)
    (le_of_eq wf.prevLen.symm)).2 i hi
  refine ⟨?_, hchar.2.1, hchar.2.2⟩
  show (Function.update p.magnitudes.buffers (1 - p.magnitudes.active)
      (processSwapState p input).1 (1 - p.magnitudes.active))[i]? = _
  rw [Function.update_same]
  exact hchar.1

/-- The size-1 processor is well-formed. -/
lemma procOne_wf : FFTWellFormed procOne := by
  refine ⟨?_, rfl, rfl, rfl, ?_⟩
  · show (1 : ℝ) = 1 / ((1 : ℕ) : ℝ)
    norm_num
  · intro j
    fin_cases j <;> rfl

/-- C1 — confirmed.  For every `Process` call on a well-formed processor
and every bin `i ∈ [0, N/2]`, the magnitude stored into the (new active)
snapshot slot is `|Y[i]| * (1/size)`, doubled exactly for the interior bins
`0 < i < N/2` and undoubled at DC (`i = 0`) and Nyquist (`i = N/2`), where
`Y` is the FFT output of the call and `size` the configured FFT size. -/
theorem fft_process_magnitude (p : FFTProcessor) (input : List ℤ) (i : ℕ)
    (wf : FFTWellFormed p) (hi : i ≤ p.fftSize / 2) :
    ((Process p input).magnitudes.buffers
        (Process p input).magnitudes.active).getD i 0 =
      if 0 < i ∧ i < p.fftSize / 2 then
        Complex.abs ((Process p input).fftOutput.getD i 0) *
          (1 / (p.fftSize : ℝ)) * 2
      else
        Complex.abs ((Process p input).fftOutput.getD i 0) *
          (1 / (p.fftSize : ℝ)) := by
  have him : i < p.frequencyBins.length := by rw [wf.binCount]; omega
  have h := (process_bins p input i wf him).1
  rw [List.getD_eq_getElem?_getD, h, Option.getD_some]
  have hY : (Process p input).fftOutput = processOutput p input := rfl
  rw [hY]
  simp only [storedMagnitude, wf.inputScale]

/-- Witness for C1 at the size-1 processor `procOne`, silent input, DC bin. -/
theorem fft_process_magnitude_witness :
    (0 : ℕ) ≤ procOne.fftSize / 2 ∧
      ((Process procOne [0]).magnitudes.buffers
          (Process procOne [0]).magnitudes.active).getD 0 0 =
        if 0 < 0 ∧ 0 < procOne.fftSize / 2 then
          Complex.abs ((Process procOne [0]).fftOutput.getD 0 0) *
            (1 / (procOne.fftSize : ℝ)) * 2
        else
          Complex.abs ((Process procOne [0]).fftOutput.getD 0 0) *
            (1 / (procOne.fftSize : ℝ)) :=
  ⟨Nat.zero_le _, fft_process_magnitude procOne [0] 0 procOne_wf (Nat.zero_le _)⟩

/-- C2 — confirmed.  For every `Process` call on a well-formed processor and
every bin `i ∈ [0, N/2]`, the stored spectral flux is
`max 0 ((mag_new[i] - prev_mag[i]) * w)` with `w = 2` for bins below 200 Hz
and `w = 1` otherwise, where `mag_new` is the compensated magnitude just
stored into the snapshot slot and `prev_mag` the pre-call previous
magnitudes; and after the call `prev_mag[i] = mag_new[i]`. -/
theorem fft_process_flux_update (p : FFTProcessor) (input : List ℤ) (i : ℕ)
    (wf : FFTWellFormed p) (hi : i ≤ p.fftSize / 2) :
    (Process p input).spectralFlux.getD i 0 =
        max 0
          ((((Process p input).magnitudes.buffers
                (Process p input).magnitudes.active).getD i 0 -
              p.prevMagnitudes.getD i 0) *
            (if p.frequencyBins.getD i 0 < 200 then 2 else 1)) ∧
      (Process p input).prevMagnitudes.getD i 0 =
        ((Process p input).magnitudes.buffers
            (Process p input).magnitudes.active).getD i 0 := by
  have him : i < p.frequencyBins.length := by rw [wf.binCount]; omega
  obtain ⟨h1, h2, h3⟩ := process_bins p input i wf him
  constructor
  · simp only [List.getD_eq_getElem?_getD, h1, h2, Option.getD_some]
    simp only [fluxValue, List.getD_eq_getElem?_getD]
    rw [posPart_eq_max]
  · simp only [List.getD_eq_getElem?_getD, h1, h3, Option.getD_some]

/-- Witness for C2 at the size-1 processor `procOne`, silent input, DC bin. -/
theorem fft_process_flux_update_witness :
    (0 : ℕ) ≤ procOne.fftSize / 2 ∧
      ((Process procOne [0]).spectralFlux.getD 0 0 =
          max 0
            ((((Process procOne [0]).magnitudes.buffers
                  (Process procOne [0]).magnitudes.active).getD 0 0 -
                procOne.prevMagnitudes.getD 0 0) *
              (if procOne.frequencyBins.getD 0 0 < 200 then 2 else 1)) ∧
        (Process procOne [0]).prevMagnitudes.getD 0 0 =
          ((Process procOne [0]).magnitudes.buffers
              (Process procOne [0]).magnitudes.active).getD 0 0) :=
  ⟨Nat.zero_le _, fft_process_flux_update procOne [0] 0 procOne_wf (Nat.zero_le _)⟩

/-! ### Concrete evaluation of the hot path on `procOne` -/

lemma rangeOne : List.range 1 = [0] := rfl

lemma procOne_buffers (j : Fin 2) : procOne.magnitudes.buffers j = [0] := by
  fin_cases j <;> rfl

lemma procOne_fftSize : procOne.fftSize = 1 := rfl

lemma procOne_freqBins : procOne.frequencyBins = [0] := rfl

lemma procOne_scale : procOne.fftInputScale = 1 := rfl

lemma processInput_procOne_zero : processInput procOne [0] = [0] := by
  norm_num [processInput, procOne, rangeOne]

lemma processOutput_procOne_zero : processOutput procOne [0] = [0] := by
  simp only [processOutput, processInput_procOne_zero, procOne_freqBins,
    procOne_fftSize]
  norm_num [dftCoeff, Finset.sum_range_one, rangeOne]

lemma procOne_swapState : processSwapState procOne [0] = ([0], [0], [0]) := by
  have hb : procOne.magnitudes.buffers (1 - procOne.magnitudes.active) = [0] :=
    procOne_buffers _
  simp only [processSwapState, processOutput_procOne_zero, procOne_freqBins, hb,
    show procOne.spectralFlux = [0] from rfl,
    show procOne.prevMagnitudes = [0] from rfl]
  norm_num [rangeOne, processStep, storedMagnitude, fluxValue,
    procOne_scale, procOne_fftSize, procOne_freqBins]

lemma procOne_step1_flux : (Process procOne [0]).spectralFlux = [0] := by
  show (processSwapState procOne [0]).2.1 = [0]
  rw [procOne_swapState]

lemma procOne_step1_getMags : GetMagnitudes (Process procOne [0]) = [0] := by
  show Function.update procOne.magnitudes.buffers (1 - procOne.magnitudes.active)
      (processSwapState procOne [0]).1 (1 - procOne.magnitudes.active) = [0]
  rw [Function.update_same, procOne_swapState]

lemma procOne_step1_prev : (Process procOne [0]).prevMagnitudes = [0] := by
  show (processSwapState procOne [0]).2.2 = [0]
  rw [procOne_swapState]

lemma procOne_step1_inactiveBuffer :
    (Process procOne [0]).magnitudes.buffers
      (1 - (Process procOne [0]).magnitudes.active) = [0] := by
  show Function.update procOne.magnitudes.buffers (1 - procOne.magnitudes.active)
      (processSwapState procOne [0]).1
      (1 - (1 - procOne.magnitudes.active)) = [0]
  rw [Function.update_noteq (by decide)]
  exact procOne_buffers _

lemma step1_fftSize : (Process procOne [0]).fftSize = 1 := rfl

lemma step1_freqBins : (Process procOne [0]).frequencyBins = [0] := rfl

lemma step1_scale : (Process procOne [0]).fftInputScale = 1 := rfl

lemma processInput_step2 :
    processInput (Process procOne [0]) [2 ^ 30] = [(1 / 2 : ℝ)] := by
  simp only [processInput, step1_fftSize,
    show (Process procOne [0]).normFactor = 1 / 2 ^ 31 from rfl,
    show (Process procOne [0]).window = [1] from rfl]
  norm_num [rangeOne]

lemma processOutput_step2 :
    processOutput (Process procOne [0]) [2 ^ 30] = [((1 / 2 : ℝ) : ℂ)] := by
  simp only [processOutput, processInput_step2, step1_freqBins, step1_fftSize]
  norm_num [dftCoeff, Finset.sum_range_one, rangeOne]

lemma procOne_step2_flux :
    (Process (Process procOne [0]) [2 ^ 30]).spectralFlux = [1] := by
  show (processSwapState (Process procOne [0]) [2 ^ 30]).2.1 = [1]
  simp only [processSwapState, processOutput_step2, step1_freqBins,
    procOne_step1_inactiveBuffer, procOne_step1_prev, procOne_step1_flux]
  norm_num [rangeOne, processStep, storedMagnitude, fluxValue,
    step1_scale, step1_fftSize, step1_freqBins, Complex.abs_ofReal]

/-- The first callback acquires and populates exactly `engineOneMsg`. -/
lemma engineOneStep1_snd : engineOneStep1.2 = some engineOneMsg := by
  show (if (GetMagnitudes (Process procOne [0])).length = 0 then none
      else some
        { Magnitudes := .fresh (GetMagnitudes (Process procOne [0]))
          SpectralFlux := .fluxView
          FrameCount := engineOne.frameCount + 1
          BPM := 0
          BPMConfidence := 0 }) = some engineOneMsg
  rw [procOne_step1_getMags]
  norm_num [engineOneMsg, engineOne]

/-- C3 — counterexample.  The claim says the callback copies the FFT
outputs into the pooled record's own buffers, so that the frame's stored
values are independent of any later `Process` call.  On the concrete
engine `engineOne`: the first callback (silent input) populates the frame's
`SpectralFlux` field with the shared flux view — not a copy into the
record's buffers — and reading that field yields `[0]` before the second
callback but `[1]` after it (input `2^30` raises the DC flux to 1), so the
frame's stored spectral-flux values change under a later `Process` call. -/
theorem hotpath_flux_aliasing_cex :
    engineOneStep1.2 = some engineOneMsg ∧
      engineOneMsg.SpectralFlux = FloatSliceRef.fluxView ∧
      readSlice engineOneStep1.1 engineOneMsg.SpectralFlux = [0] ∧
      readSlice engineOneStep2.1 engineOneMsg.SpectralFlux = [1] := by
  refine ⟨engineOneStep1_snd, rfl, ?_, ?_⟩
  · show (Process procOne [0]).spectralFlux = [0]
    exact procOne_step1_flux
  · show (Process (Process procOne [0]) [2 ^ 30]).spectralFlux = [1]
    exact procOne_step2_flux

/-- C3 — amended.  For every callback invocation that acquires a frame, the
frame's `Magnitudes` field holds the freshly allocated copy returned by the
double-buffer `Get` — its read value is independent of any later engine
state — while its `SpectralFlux` field holds the processor's shared
persistent flux view, not a copy into the pooled record's buffers: reading
it after the next callback yields the NEXT `Process` call's flux.  (Neither
field reuses the pooled record's pre-sized buffer capacity; the slice
assignments replace the slice headers.) -/
theorem hotpath_slice_semantics (e : Engine) (input input2 : List ℤ)
    (msg : HotPathRawMessage)
    (h : (processInputStream e input).2 = some msg) :
    msg.Magnitudes = FloatSliceRef.fresh (GetMagnitudes (Process e.fftProc input)) ∧
      msg.SpectralFlux = FloatSliceRef.fluxView ∧
      (∀ e' : Engine, readSlice e' msg.Magnitudes =
        GetMagnitudes (Process e.fftProc input)) ∧
      readSlice (processInputStream (processInputStream e input).1 input2).1
          msg.SpectralFlux =
        (Process (Process e.fftProc input) input2).spectralFlux := by
  rw [show (processInputStream e input).2 =
      (if (GetMagnitudes (Process e.fftProc input)).length = 0 then none
        else some
          { Magnitudes := .fresh (GetMagnitudes (Process e.fftProc input))
            SpectralFlux := .fluxView
            FrameCount := e.frameCount + 1
            BPM := 0
            BPMConfidence := 0 }) from rfl] at h
  by_cases hlen : (GetMagnitudes (Process e.fftProc input)).length = 0
  · rw [if_pos hlen] at h
    exact Option.noConfusion h
  · rw [if_neg hlen] at h
    injection h with h
    subst h
    exact ⟨rfl, rfl, fun _ => rfl, rfl⟩

/-- Witness for the amended C3 at the concrete engine `engineOne`. -/
theorem hotpath_slice_semantics_witness :
    (processInputStream engineOne [0]).2 = some engineOneMsg ∧
      (engineOneMsg.Magnitudes =
          FloatSliceRef.fresh (GetMagnitudes (Process engineOne.fftProc [0])) ∧
        engineOneMsg.SpectralFlux = FloatSliceRef.fluxView ∧
        (∀ e' : Engine, readSlice e' engineOneMsg.Magnitudes =
          GetMagnitudes (Process engineOne.fftProc [0])) ∧
        readSlice
            (processInputStream (processInputStream engineOne [0]).1 [2 ^ 30]).1
            engineOneMsg.SpectralFlux =
          (Process (Process engineOne.fftProc [0]) [2 ^ 30]).spectralFlux) :=
  ⟨engineOneStep1_snd,
    hotpath_slice_semantics engineOne [0] [2 ^ 30] engineOneMsg engineOneStep1_snd⟩

/-! ### BPM detector: inter-onset interval filter (C6) -/

/-- C6 — counterexample.  The claim says intervals in the CLOSED range
`[0.2, 2.0]` s are kept, an interval of exactly `0.2` s or exactly `2.0` s
included.  The code's filter is strict on both sides
(`interval > 0.2 && interval < 2.0`): for onset times `[0, 0.2]` the single
interval is exactly `0.2` s and is dropped, and for `[0, 2]` the single
interval is exactly `2.0` s and is dropped — both retained-interval lists
are empty although the claim says they are kept. -/
theorem collectIntervals_boundary_cex :
    ((0.2 : ℝ) ∈ Set.Icc (0.2 : ℝ) 2 ∧ (2 : ℝ) ∈ Set.Icc (0.2 : ℝ) 2) ∧
      collectIntervals [0, 0.2] = [] ∧ collectIntervals [0, 2] = [] := by
  refine ⟨⟨?_, ?_⟩, ?_, ?_⟩
  · constructor <;> norm_num
  · constructor <;> norm_num
  · show (if (0.2 : ℝ) - 0 > 0.2 ∧ (0.2 : ℝ) - 0 < 2.0 then
        ((0.2 : ℝ) - 0) :: collectIntervals [0.2] else collectIntervals [0.2]) = []
    rw [if_neg (by norm_num)]
    rfl
  · show (if (2 : ℝ) - 0 > 0.2 ∧ (2 : ℝ) - 0 < 2.0 then
        ((2 : ℝ) - 0) :: collectIntervals [2] else collectIntervals [2]) = []
    rw [if_neg (by norm_num)]
    rfl

/-- C6 — amended.  The inter-onset intervals retained for histogramming and
scoring are exactly the consecutive onset-time differences lying in the OPEN
interval `(0.2, 2.0)` s; an interval of exactly `0.2` s or exactly `2.0` s
is dropped. -/
theorem collectIntervals_spec (ts : List ℝ) :
    collectIntervals ts =
      (consecutiveDiffs ts).filter fun d => decide (0.2 < d ∧ d < 2.0) := by
  induction ts with
  | nil => rfl
  | cons t0 rest ih =>
    cases rest with
    | nil => rfl
    | cons t1 rest' =>
      have hcd : consecutiveDiffs (t0 :: t1 :: rest') =
          (t1 - t0) :: consecutiveDiffs (t1 :: rest') := rfl
      rw [hcd, List.filter_cons]
      by_cases h : t1 - t0 > 0.2 ∧ t1 - t0 < 2.0
      · have hd : decide ((0.2 : ℝ) < t1 - t0 ∧ t1 - t0 < 2.0) = true := by
          rw [decide_eq_true_eq]; exact h
        show (if t1 - t0 > 0.2 ∧ t1 - t0 < 2.0 then
            (t1 - t0) :: collectIntervals (t1 :: rest')
          else collectIntervals (t1 :: rest')) = _
        rw [if_pos h, hd, if_pos rfl, ih]
      · have hd : ¬ (decide ((0.2 : ℝ) < t1 - t0 ∧ t1 - t0 < 2.0) = true) := by
          rw [decide_eq_true_eq]; exact h
        show (if t1 - t0 > 0.2 ∧ t1 - t0 < 2.0 then
            (t1 - t0) :: collectIntervals (t1 :: rest')
          else collectIntervals (t1 :: rest')) = _
        rw [if_neg h, if_neg hd, ih]

/-! ### BPM detector: onset classification (C7) -/

/-- An index-loop sum over a window of a buffer equals the sum over the
dropped suffix, mapped. -/
lemma window_foldl_sum (f : ℝ → ℝ) (buf : List ℝ) (s : ℕ) :
    (List.range (buf.length - s)).foldl
        (fun acc i => acc + f (buf.getD (s + i) 0)) 0 =
      ((buf.drop s).map f).sum := by
  have hmap : (buf.drop s).map f =
      (List.range (buf.length - s)).map fun i => f (buf.getD (s + i) 0) := by
    apply List.ext_getElem
    · simp [List.length_drop]
    · intro n h1 h2
      rw [List.getElem_map, List.getElem_map, List.getElem_range,
        List.getElem_drop]
      have hn : s + n < buf.length := by
        simp [List.length_drop] at h1
        omega
      congr 1
      rw [List.getD_eq_getElem?_getD, List.getElem?_eq_getElem hn]
      rfl
  rw [hmap, List.sum_eq_foldl, List.foldl_map]

/-- The source's index-loop mean over the last 20 live values equals the
spec's list mean. -/
lemma mean20_eq_spec (buf : List ℝ) (h : 20 ≤ buf.length) :
    mean20 buf = specLast20Mean buf := by
  have h1 := window_foldl_sum (fun x => x) buf (buf.length - 20)
  rw [show buf.length - (buf.length - 20) = 20 from by omega] at h1
  have h2 : (List.range 20).foldl
      (fun acc i => acc + buf.getD (buf.length - 20 + i) 0) 0 =
      ((buf.drop (buf.length - 20)).map fun x => x).sum := h1
  unfold mean20 specLast20Mean
  rw [h2, List.map_id']

/-- The source's accumulated squared deviations over the last 20 live
values equal the spec's sum of squares. -/
lemma varSum20_eq_spec (buf : List ℝ) (m : ℝ) (h : 20 ≤ buf.length) :
    varSum20 buf m =
      ((buf.drop (buf.length - 20)).map fun x => (x - m) ^ 2).sum := by
  have h1 := window_foldl_sum (fun x => (x - m) * (x - m)) buf (buf.length - 20)
  rw [show buf.length - (buf.length - 20) = 20 from by omega] at h1
  calc varSum20 buf m
      = ((buf.drop (buf.length - 20)).map fun x => (x - m) * (x - m)).sum := h1
    _ = ((buf.drop (buf.length - 20)).map fun x => (x - m) ^ 2).sum := by
        simp [pow_two]

/-- The code's dynamic threshold (index-loop statistics, default floor
`0.1`) is the spec's `max(mean + 1.5*stdDev, 0.1)`. -/
lemma dynamicThreshold_eq_spec (buf : List ℝ) (h : 20 ≤ buf.length) :
    dynamicThreshold buf 0.1 = specThreshold buf := by
  unfold dynamicThreshold specThreshold specLast20Std
  rw [mean20_eq_spec buf h, varSum20_eq_spec buf _ h]

/-- Indexing the last element via `getD` is `getLast?`. -/
lemma getD_last_eq (buf : List ℝ) :
    buf.getD (buf.length - 1) 0 = buf.getLast?.getD 0 := by
  rw [List.getD_eq_getElem?_getD, List.getLast?_eq_getElem?]

/-- Indexing the second-to-last element via `getD` is `getLast?` of
`dropLast`. -/
lemma getD_secondLast_eq (buf : List ℝ) (h : 2 ≤ buf.length) :
    buf.getD (buf.length - 2) 0 = buf.dropLast.getLast?.getD 0 := by
  rw [List.getD_eq_getElem?_getD, List.getLast?_eq_getElem?,
    List.length_dropLast,
    show buf.length - 1 - 1 = buf.length - 2 from by omega]
  congr 1
  rw [List.getElem?_eq_getElem (show buf.length - 2 < buf.length from by omega),
    List.getElem?_eq_getElem
      (show buf.length - 2 < buf.dropLast.length from by
        rw [List.length_dropLast]; omega),
    List.getElem_dropLast]

/-- C7 — confirmed.  Once the post-append onset buffer holds more than 20
values (and with the constructor's `onsetThreshold = 0.1`), the newest value
is classified as an onset by `processFlux` if and only if
`cur > max(mean + 1.5*stdDev, 0.1)` (statistics over the last 20 buffered
values) and `cur > 1.3 * prev`, `prev` being the immediately preceding
buffered value; when the condition fails, `processFlux` only appends to the
rolling buffer and records nothing. -/
theorem processFlux_onset_iff (bd : BPMDetector) (flux : List ℝ)
    (frameCount : ℕ) (hthr : bd.onsetThreshold = 0.1)
    (hlen : 20 < (pushRolling 1024 bd.onsetBuffer (reducedFlux flux)).length) :
    (onsetCondition (pushRolling 1024 bd.onsetBuffer (reducedFlux flux))
        bd.onsetThreshold ↔
      (pushRolling 1024 bd.onsetBuffer (reducedFlux flux)).getLast?.getD 0 >
          specThreshold (pushRolling 1024 bd.onsetBuffer (reducedFlux flux)) ∧
        (pushRolling 1024 bd.onsetBuffer (reducedFlux flux)).getLast?.getD 0 >
          1.3 *
            ((pushRolling 1024 bd.onsetBuffer
                (reducedFlux flux)).dropLast.getLast?.getD 0)) ∧
      (¬ onsetCondition (pushRolling 1024 bd.onsetBuffer (reducedFlux flux))
          bd.onsetThreshold →
        processFlux bd flux frameCount =
          ({ bd with
              onsetBuffer := pushRolling 1024 bd.onsetBuffer (reducedFlux flux) },
            false)) := by
  set buf := pushRolling 1024 bd.onsetBuffer (reducedFlux flux) with hbuf
  have h20 : 20 ≤ buf.length := by omega
  constructor
  · unfold onsetCondition
    rw [hthr, dynamicThreshold_eq_spec buf h20, getD_last_eq,
      getD_secondLast_eq buf (by omega),
      mul_comm (buf.dropLast.getLast?.getD 0) (1.3 : ℝ)]
  · intro hnot
    simp only [processFlux]
    rw [← hbuf]
    rw [if_pos hlen, if_neg hnot]

/-- Witness for C7 at a concrete detector whose buffer holds twenty `1`s,
fed the flux vector `[3]`. -/
theorem processFlux_onset_iff_witness :
    (bdTwenty.onsetThreshold = 0.1 ∧
        20 < (pushRolling 1024 bdTwenty.onsetBuffer (reducedFlux [3])).length) ∧
      ((onsetCondition (pushRolling 1024 bdTwenty.onsetBuffer (reducedFlux [3]))
            bdTwenty.onsetThreshold ↔
          (pushRolling 1024 bdTwenty.onsetBuffer
                (reducedFlux [3])).getLast?.getD 0 >
              specThreshold
                (pushRolling 1024 bdTwenty.onsetBuffer (reducedFlux [3])) ∧
            (pushRolling 1024 bdTwenty.onsetBuffer
                (reducedFlux [3])).getLast?.getD 0 >
              1.3 *
                ((pushRolling 1024 bdTwenty.onsetBuffer
                    (reducedFlux [3])).dropLast.getLast?.getD 0)) ∧
        (¬ onsetCondition
            (pushRolling 1024 bdTwenty.onsetBuffer (reducedFlux [3]))
            bdTwenty.onsetThreshold →
          processFlux bdTwenty [3] 1 =
            ({ bdTwenty with
                onsetBuffer :=
                  pushRolling 1024 bdTwenty.onsetBuffer (reducedFlux [3]) },
              false))) :=
  ⟨⟨rfl, by norm_num [pushRolling, bdTwenty]⟩,
    processFlux_onset_iff bdTwenty [3] 1 rfl
      (by norm_num [pushRolling, bdTwenty])⟩

/-! ### BPM detector: candidate dedup (C8) -/

/-- Inserting into the dedup map either leaves the key list unchanged (key
present) or appends the new key (key absent). -/
lemma mapUpsert_keys (key : ℝ) (c : scoredBPM) :
    ∀ m : List (ℝ × scoredBPM),
      (mapUpsert key c m).map Prod.fst =
        if key ∈ m.map Prod.fst then m.map Prod.fst
        else m.map Prod.fst ++ [key] := by
  intro m
  induction m with
  | nil => simp [mapUpsert]
  | cons kv rest ih =>
    obtain ⟨k, v⟩ := kv
    by_cases hk : k = key
    · subst hk
      simp only [mapUpsert]
      rw [if_pos (trivial : True),
        if_pos (show k ∈ ((k, v) :: rest).map Prod.fst by simp)]
      simp only [List.map_cons]
      congr 1
      split <;> rfl
    · simp only [mapUpsert, if_neg hk, List.map_cons, ih]
      by_cases hmem : key ∈ rest.map Prod.fst
      · rw [if_pos hmem, if_pos (by simp [hmem])]
      · have hnot : key ∉ (k :: rest.map Prod.fst) := by
          simp only [List.mem_cons]
          push_neg
          exact ⟨fun h => hk h.symm, hmem⟩
        rw [if_neg hmem, if_neg hnot]
        simp

/-- Every binding of the dedup map stores a candidate under its own
rounded-BPM key, provided the inserted candidate does. -/
lemma mapUpsert_bindings (key : ℝ) (c : scoredBPM)
    (hc : roundHalfBPM c.bpm = key) :
    ∀ m : List (ℝ × scoredBPM),
      (∀ kv ∈ m, roundHalfBPM kv.2.bpm = kv.1) →
      ∀ kv ∈ mapUpsert key c m, roundHalfBPM kv.2.bpm = kv.1 := by
  intro m
  induction m with
  | nil =>
    intro _ kv hkv
    rw [show mapUpsert key c [] = [(key, c)] from rfl] at hkv
    rcases List.mem_singleton.mp hkv with rfl
    exact hc
  | cons hd rest ih =>
    intro hm kv hkv
    obtain ⟨k, v⟩ := hd
    by_cases hk : k = key
    · subst hk
      simp only [mapUpsert, if_pos rfl] at hkv
      rcases List.mem_cons.mp hkv with rfl | h
      · split
        · exact hc
        · exact hm (k, v) (List.mem_cons_self _ _)
      · exact hm kv (List.mem_cons_of_mem _ h)
    · simp only [mapUpsert, if_neg hk] at hkv
      rcases List.mem_cons.mp hkv with rfl | h
      · exact hm (k, v) (List.mem_cons_self _ _)
      · exact ih (fun kv' hkv' => hm kv' (List.mem_cons_of_mem _ hkv')) kv h

/-- Folding the scored candidates into the dedup map keeps every binding
under its rounded key and keeps the key list duplicate-free. -/
lemma dedupe_foldl_invariant (cands : List scoredBPM) :
    ∀ m : List (ℝ × scoredBPM),
      (∀ kv ∈ m, roundHalfBPM kv.2.bpm = kv.1) →
      (m.map Prod.fst).Nodup →
      (∀ kv ∈ cands.foldl (fun acc c => mapUpsert (roundHalfBPM c.bpm) c acc) m,
          roundHalfBPM kv.2.bpm = kv.1) ∧
        ((cands.foldl (fun acc c => mapUpsert (roundHalfBPM c.bpm) c acc)
            m).map Prod.fst).Nodup := by
  induction cands with
  | nil => exact fun m hm hnd => ⟨hm, hnd⟩
  | cons c rest ih =>
    intro m hm hnd
    simp only [List.foldl_cons]
    apply ih
    · exact mapUpsert_bindings _ c rfl m hm
    · rw [mapUpsert_keys]
      by_cases hmem : roundHalfBPM c.bpm ∈ m.map Prod.fst
      · rw [if_pos hmem]
        exact hnd
      · rw [if_neg hmem, List.nodup_append]
        refine ⟨hnd, List.nodup_singleton _, ?_⟩
        intro x hx hxk
        rcases List.mem_singleton.mp hxk with rfl
        exact hmem hx

/-- The dedup map's value list has pairwise-distinct rounded-BPM keys. -/
lemma dedupe_pairwise (cands : List scoredBPM) :
    List.Pairwise (fun a b => roundHalfBPM a.bpm ≠ roundHalfBPM b.bpm)
      ((dedupeCandidates cands).map Prod.snd) := by
  obtain ⟨hbind, hnd⟩ :=
    dedupe_foldl_invariant cands [] (by simp) (by simp)
  rw [List.pairwise_map]
  have hpair : List.Pairwise (fun kv kv' : ℝ × scoredBPM => kv.1 ≠ kv'.1)
      (dedupeCandidates cands) := by
    have h : List.Pairwise (fun a b : ℝ => a ≠ b)
        ((dedupeCandidates cands).map Prod.fst) := hnd
    rw [List.pairwise_map] at h
    exact h
  refine hpair.imp_of_mem ?_
  intro a b ha hb hne
  rw [hbind a ha, hbind b hb]
  exact hne

/-- C8 — confirmed.  After every `calculateBPM` run, the final scored
candidate list (dedup map values, sorted by score) contains no two entries
whose BPM values round to the same nearest-0.5-BPM key.  The theorem
quantifies over an arbitrary scored-candidate list, so it covers whatever
the earlier pipeline stages produced; the property is invariant under the
unspecified Go map iteration order (it holds for every permutation). -/
theorem calculateBPM_dedup (cands : List scoredBPM) :
    List.Pairwise (fun a b => roundHalfBPM a.bpm ≠ roundHalfBPM b.bpm)
      (finalCandidates cands) := by
  have hperm :
      (finalCandidates cands).Perm ((dedupeCandidates cands).map Prod.snd) :=
    List.mergeSort_perm _ _
  exact (List.Perm.pairwise_iff (fun h => Ne.symm h) hperm).mpr
    (dedupe_pairwise cands)

end Phase4
